import Mathlib

/-!
Verification of the Mesh Policy Resolution & Validation Engine
(linkerd-mcp).  The definitions below are a shallow embedding of the Go
source: the injected Kubernetes object source is modelled as immutable
snapshots (lists of typed objects plus a fetch function for
authentication objects), and each Go function is translated into a pure
Lean function over those snapshots.  Optional/missing fields of the
unstructured Kubernetes objects are modelled with `Option` (mirroring
the `found` flag of `unstructured.Nested*` accessors) or with the Go
zero value `""` where the source ignores the `found` flag.
-/

namespace LinkerdMCP

/-- Association-list lookup, first match wins (models Go map indexing
for maps whose keys are unique). -/
def alookup {β : Type} (k : String) : List (String × β) → Option β
  | [] => none
  | kv :: rest => if kv.1 = k then some kv.2 else alookup k rest

/-- A label map (`map[string]string` in Go), as an association list.
Go maps have unique keys; statements that need this carry a
`keelsNodup`-style hypothesis. -/
abbrev Labels := List (String × String)

/-- The keys of an association list are pairwise distinct (always true
of a value that came from a Go map). -/
def keysNodup {β : Type} (m : List (String × β)) : Prop :=
  (m.map Prod.fst).Nodup

/-- `spec.serviceAccounts` entry of an authentication object.  `ns` is
`""` when the entry omits the namespace (Go reads it with
`NestedString`, which yields the zero value). -/
structure ServiceAccountRef where
  name : String
  ns : String
  deriving DecidableEq, Repr

/-- `spec.networks` entry of a NetworkAuthentication. -/
structure NetworkRef where
  cidr : String
  except : List String
  deriving DecidableEq, Repr

/-- An authentication object (MeshTLSAuthentication or
NetworkAuthentication) as the engine reads it: the three optional
list-valued spec fields, `none` when the field is absent. -/
structure AuthObj where
  identities : Option (List String)
  serviceAccounts : Option (List ServiceAccountRef)
  networks : Option (List NetworkRef)
  deriving DecidableEq, Repr

/-- A `requiredAuthenticationRefs` entry.  The CRD allows a namespace
on the ref; the engine under verification never reads it. -/
structure AuthRef where
  kind : String
  name : String
  ns : String
  deriving DecidableEq, Repr

/-- `spec.targetRef` of an AuthorizationPolicy. -/
structure TargetRef where
  kind : String
  name : String
  deriving DecidableEq, Repr

/-- An AuthorizationPolicy object.  `targetRef` and
`requiredAuthenticationRefs` are `none` when the nested field is
absent. -/
structure AuthorizationPolicy where
  name : String
  ns : String
  targetRef : Option TargetRef
  requiredAuthenticationRefs : Option (List AuthRef)
  deriving DecidableEq, Repr

/-- A Server object as the engine reads it: `port` and the
`podSelector.matchLabels` map are `none` when absent. -/
structure Server where
  name : String
  ns : String
  port : Option Int
  matchLabels : Option Labels
  deriving DecidableEq, Repr

/-- A pod record: namespace, labels, service account name (`""` when
unset). -/
structure Pod where
  name : String
  ns : String
  labels : Labels
  serviceAccountName : String
  deriving DecidableEq, Repr

/-- The dynamic-client `Get` for authentication objects: arguments are
the resource name (`meshtlsauthentications` or
`networkauthentications`), the namespace and the object name; `none`
models any `Get` error. -/
abbrev AuthFetch := String → String → String → Option AuthObj

/-- The GroupVersionResource selection of `checkAuthenticationMatch`:
the resource defaults to `meshtlsauthentications` and is switched for
kind `NetworkAuthentication`. -/
def resourceForKind (kind : String) : String :=
  if kind = "NetworkAuthentication" then "networkauthentications"
  else "meshtlsauthentications"

/-- The canonical Linkerd identity string constructed by
`checkAuthenticationMatch`:
`{serviceaccount}.{namespace}.serviceaccount.identity.linkerd.cluster.local`. -/
def canonicalIdentity (serviceAccount ns : String) : String :=
  serviceAccount ++ "." ++ ns ++ ".serviceaccount.identity.linkerd.cluster.local"

/-- The body of `checkAuthenticationMatch` after the `Get`: scan
`spec.identities` for the canonical identity or `"*"`, then scan
`spec.serviceAccounts` for a name/namespace match, defaulting an empty
entry namespace to the Server's namespace.  The `networks` field is
not read. -/
def authMatches (auth : AuthObj) (serverNs srcNs srcSA : String) : Bool :=
  (match auth.identities with
   | some ids => ids.any fun s =>
       s == canonicalIdentity srcSA srcNs || s == "*"
   | none => false)
  ||
  (match auth.serviceAccounts with
   | some sas => sas.any fun sa =>
       let saNs := if sa.ns = "" then serverNs else sa.ns
       sa.name == srcSA && saNs == srcNs
   | none => false)

/-- `checkAuthenticationMatch`: fetch the authentication object from
the Server's namespace (a failed `Get` yields `false`) and test it
against the source. -/
def checkAuthenticationMatch (fetch : AuthFetch)
    (serverNs authName authKind srcNs srcSA : String) : Bool :=
  match fetch (resourceForKind authKind) serverNs authName with
  | none => false
  | some auth => authMatches auth serverNs srcNs srcSA

/-- `checkSourceAllowed`: `false` when `requiredAuthenticationRefs` is
absent; otherwise `true` iff some ref of kind `MeshTLSAuthentication`
or `NetworkAuthentication` matches the source.  Only the `kind` and
`name` of each ref are read. -/
def checkSourceAllowed (fetch : AuthFetch) (policy : AuthorizationPolicy)
    (serverNs srcNs srcSA : String) : Bool :=
  match policy.requiredAuthenticationRefs with
  | none => false
  | some refs => refs.any fun r =>
      (r.kind == "MeshTLSAuthentication" || r.kind == "NetworkAuthentication")
      && checkAuthenticationMatch fetch serverNs r.name r.kind srcNs srcSA

/-- An allowed-source descriptor built by `extractSourcesFromAuth`
(the `map[string]interface{}` values of the Go code, as a tagged
union). -/
inductive SourceDesc where
  | wildcard (authName policyName : String)
  | identityDesc (id authName policyName : String)
  | serviceAccountDesc (saName saNs authName policyName : String)
  | networkDesc (cidr : String) (excepts : List String) (authName policyName : String)
  deriving DecidableEq, Repr

/-- The map key under which `extractSourcesFromAuth` stores a
descriptor: `"all-authenticated"` for a wildcard, the identity string
itself, `"<namespace>/<name>"` for a service account,
`"network-<cidr>"` for a network. -/
def descKey : SourceDesc → String
  | .wildcard _ _ => "all-authenticated"
  | .identityDesc id _ _ => id
  | .serviceAccountDesc saName saNs _ _ => saNs ++ "/" ++ saName
  | .networkDesc cidr _ _ _ => "network-" ++ cidr

/-- The `type` field carried by a descriptor (`"wildcard"` or
`"network"`; identity and service-account descriptors carry none). -/
def descType : SourceDesc → Option String
  | .wildcard _ _ => some "wildcard"
  | .networkDesc _ _ _ _ => some "network"
  | _ => none

/-- The `sourcesMap` of the Go code: a string-keyed map of
descriptors, as an association list with unique keys. -/
abbrev SMap := List (String × SourceDesc)

/-- Go map assignment `sources[key] = v`: last write wins. -/
def mapInsert (m : SMap) (k : String) (v : SourceDesc) : SMap :=
  (k, v) :: m.filter fun kv => kv.1 != k

/-- The `spec.identities` loop of `extractSourcesFromAuth`: `"*"` is
stored under the fixed key `"all-authenticated"`, any other identity
string under itself. -/
def processIdentities (authName policyName : String) (m : SMap)
    (ids : List String) : SMap :=
  ids.foldl (fun m s =>
    if s = "*" then
      mapInsert m "all-authenticated" (.wildcard authName policyName)
    else
      mapInsert m s (.identityDesc s authName policyName)) m

/-- The `spec.serviceAccounts` loop of `extractSourcesFromAuth`: the
entry namespace defaults to the authentication object's namespace. -/
def processServiceAccounts (ns authName policyName : String) (m : SMap)
    (sas : List ServiceAccountRef) : SMap :=
  sas.foldl (fun m sa =>
    let saNs := if sa.ns = "" then ns else sa.ns
    mapInsert m (saNs ++ "/" ++ sa.name)
      (.serviceAccountDesc sa.name saNs authName policyName)) m

/-- The `spec.networks` loop of `extractSourcesFromAuth`. -/
def processNetworks (authName policyName : String) (m : SMap)
    (nets : List NetworkRef) : SMap :=
  nets.foldl (fun m n =>
    mapInsert m ("network-" ++ n.cidr)
      (.networkDesc n.cidr n.except authName policyName)) m

/-- The `identities` loop of `extractSourcesFromAuth` applied to the
optional field (a missing field leaves the map unchanged). -/
def applyIdentities (authName policyName : String) (m : SMap) :
    Option (List String) → SMap
  | some ids => processIdentities authName policyName m ids
  | none => m

/-- The `serviceAccounts` loop applied to the optional field. -/
def applyServiceAccounts (ns authName policyName : String) (m : SMap) :
    Option (List ServiceAccountRef) → SMap
  | some sas => processServiceAccounts ns authName policyName m sas
  | none => m

/-- The `networks` loop applied to the optional field. -/
def applyNetworks (authName policyName : String) (m : SMap) :
    Option (List NetworkRef) → SMap
  | some nets => processNetworks authName policyName m nets
  | none => m

/-- `extractSourcesFromAuth`: an unknown kind or a failed `Get` yields
the empty map; otherwise the three spec lists are folded, in source
order, into the map. -/
def extractSourcesFromAuth (fetch : AuthFetch)
    (ns authName authKind policyName : String) : SMap :=
  if authKind = "MeshTLSAuthentication" ∨ authKind = "NetworkAuthentication" then
    match fetch (if authKind = "MeshTLSAuthentication" then
        "meshtlsauthentications" else "networkauthentications") ns authName with
    | none => []
    | some auth =>
      applyNetworks authName policyName
        (applyServiceAccounts ns authName policyName
          (applyIdentities authName policyName [] auth.identities)
          auth.serviceAccounts)
        auth.networks
  else []

/-- The `for key, source := range sources` merge loop of
`findAllowedSources`. -/
def mergeSources (m : SMap) (src : SMap) : SMap :=
  src.foldl (fun acc kv => mapInsert acc kv.1 kv.2) m

/-- The `requiredAuthenticationRefs` loop body of
`findAllowedSources`: expand one ref and merge its descriptors. -/
def refStep (fetch : AuthFetch) (ns policyName : String) (m : SMap)
    (r : AuthRef) : SMap :=
  mergeSources m (extractSourcesFromAuth fetch ns r.name r.kind policyName)

/-- The policy loop body of `findAllowedSources`: skip policies with
no `targetRef`, with a `targetRef.name` that is not a matching Server,
or with no `requiredAuthenticationRefs`; otherwise process each
authentication ref. -/
def policyStep (fetch : AuthFetch) (ns : String)
    (matchingServers : List String) (m : SMap)
    (p : AuthorizationPolicy) : SMap :=
  match p.targetRef with
  | none => m
  | some tr =>
    if matchingServers.any (fun s => s == tr.name) then
      match p.requiredAuthenticationRefs with
      | none => m
      | some refs => refs.foldl (refStep fetch ns p.name) m
    else m

/-- `findAllowedSources`: over the AuthorizationPolicies of the target
namespace, keep those whose `targetRef.name` is a matching Server,
expand each authentication ref, deduplicate by key, and return the map
values. -/
def findAllowedSources (fetch : AuthFetch)
    (policies : List AuthorizationPolicy) (ns : String)
    (matchingServers : List String) : List SourceDesc :=
  (((policies.filter fun p => p.ns == ns).foldl
    (policyStep fetch ns matchingServers) ([] : SMap)).map Prod.snd)

/-- `findServersForService`: the Servers of the namespace whose
`podSelector.matchLabels["app"]` equals the service name (Servers with
no `podSelector`/`matchLabels` are skipped). -/
def findServersForService (servers : List Server) (ns service : String) :
    List String :=
  ((servers.filter fun s => s.ns == ns).filter fun s =>
    match s.matchLabels with
    | none => false
    | some ml => alookup "app" ml == some service).map Server.name

/-- Result of `GetAllowedSources`: an MCP error result, a plain text
message, or the structured payload (target, matching servers, allowed
sources, count). -/
inductive SourcesResult where
  | errorResult (msg : String)
  | messageResult (msg : String)
  | payload (targetNs targetService : String) (matchingServers : List String)
      (allowedSources : List SourceDesc) (totalSources : Nat)
  deriving Repr

/-- `GetAllowedSources`: with zero matching Servers, a plain
informational text result; otherwise the structured payload. -/
def GetAllowedSources (fetch : AuthFetch) (servers : List Server)
    (policies : List AuthorizationPolicy)
    (targetNs targetService : String) : SourcesResult :=
  let matchingServers := findServersForService servers targetNs targetService
  if matchingServers.isEmpty then
    .messageResult ("No Linkerd Servers found for service " ++ targetService
      ++ " in namespace " ++ targetNs)
  else
    let allowedSources := findAllowedSources fetch policies targetNs matchingServers
    .payload targetNs targetService matchingServers allowedSources
      allowedSources.length

/-- `getServiceAccountForService`: list pods of the namespace matching
label selector `app=<service>`; error when none; the first pod's
service account, defaulted to `"default"` when empty. -/
def getServiceAccountForService (pods : List Pod) (ns service : String) :
    Except String String :=
  match pods.filter (fun p => p.ns == ns && alookup "app" p.labels == some service) with
  | [] => .error ("no pods found for service " ++ service ++ " in namespace " ++ ns)
  | p :: _ =>
    .ok (if p.serviceAccountName = "" then "default" else p.serviceAccountName)

/-- A target descriptor emitted by forward resolution. -/
structure TargetDesc where
  ns : String
  server : String
  labels : Labels
  port : Int
  authorizationPolicy : String
  deriving DecidableEq, Repr

/-- `extractServerInfo`: `none` when the Server lacks
`podSelector.matchLabels` or `port`. -/
def extractServerInfo (s : Server) (policyName : String) : Option TargetDesc :=
  match s.matchLabels with
  | none => none
  | some ml =>
    match s.port with
    | none => none
    | some p => some ⟨s.ns, s.name, ml, p, policyName⟩

/-- `findAllowedTargets`: for every Server in the cluster and every
AuthorizationPolicy of the Server's namespace targeting it, emit a
target descriptor when `checkSourceAllowed` accepts the source. -/
def findAllowedTargets (fetch : AuthFetch) (servers : List Server)
    (policies : List AuthorizationPolicy) (srcNs srcSA : String) :
    List TargetDesc :=
  servers.foldl (fun acc server =>
    (policies.filter fun p => p.ns == server.ns).foldl (fun acc p =>
      match p.targetRef with
      | none => acc
      | some tr =>
        if tr.name == server.name then
          if checkSourceAllowed fetch p server.ns srcNs srcSA then
            match extractServerInfo server p.name with
            | some ti => acc ++ [ti]
            | none => acc
          else acc
        else acc) acc) []

/-- Result of `GetAllowedTargets`: an MCP error result or the
structured payload. -/
inductive TargetsResult where
  | errorResult (msg : String)
  | payload (srcNs srcService srcSA : String)
      (allowedTargets : List TargetDesc) (totalTargets : Nat)
  deriving Repr

/-- `GetAllowedTargets`: resolve the source service account (an error
becomes an MCP error result with the error's text and no target list),
then forward-resolve. -/
def GetAllowedTargets (fetch : AuthFetch) (pods : List Pod)
    (servers : List Server) (policies : List AuthorizationPolicy)
    (srcNs srcService : String) : TargetsResult :=
  match getServiceAccountForService pods srcNs srcService with
  | .error e => .errorResult e
  | .ok sa =>
    let allowedTargets := findAllowedTargets fetch servers policies srcNs sa
    .payload srcNs srcService sa allowedTargets allowedTargets.length

/-- The analysis structure returned by `AnalyzeConnectivity`. -/
structure ConnectivityAnalysis where
  sourceNs : String
  sourceService : String
  targetNs : String
  targetService : String
  allowed : Bool
  policies : List String
  explanation : String
  deriving DecidableEq, Repr

/-- `AnalyzeConnectivity`: defaults `targetNamespace` to
`sourceNamespace` when empty and returns a fixed placeholder analysis;
it consults no cluster objects (the function takes none). -/
def AnalyzeConnectivity (sourceNs sourceService targetNs targetService : String) :
    ConnectivityAnalysis :=
  let targetNs := if targetNs = "" then sourceNs else targetNs
  { sourceNs := sourceNs
    sourceService := sourceService
    targetNs := targetNs
    targetService := targetService
    allowed := true
    policies := []
    explanation := "Policy analysis implementation pending - requires Linkerd CRD integration" }

/-- `labelsOverlap`: an empty selector overlaps everything; otherwise
the two label sets overlap when some key of the first maps to the same
value in the second. -/
def labelsOverlap (labels1 labels2 : Labels) : Bool :=
  if labels1.isEmpty || labels2.isEmpty then true
  else labels1.any fun kv =>
    match alookup kv.1 labels2 with
    | some v2 => kv.2 == v2
    | none => false

/-- The conflict loop of the Server validator (`checkConflicts`),
returning the names of the Servers it flags: every other Server of the
same namespace (self excluded by name) with equal port (missing ports
read as the zero value) and overlapping selectors. -/
def checkConflicts (s : Server) (allServers : List Server) : List String :=
  (((allServers.filter fun o => o.ns == s.ns).filter fun o =>
    o.name != s.name
    && (s.port.getD 0 == o.port.getD 0)
    && labelsOverlap (s.matchLabels.getD []) (o.matchLabels.getD [])).map
    Server.name)

/-- A validation issue.  `severity` is the Go string type `Severity`
(`"error"`, `"warning"` or `"info"`). -/
structure Issue where
  severity : String
  message : String
  field : String
  remediation : String
  code : String
  deriving DecidableEq, Repr

/-- The result of validating a single resource.  `timestamp` is a
clock reading (`time.Time` modelled as `Nat`). -/
structure ValidationResult where
  resourceType : String
  name : String
  ns : String
  valid : Bool
  issues : List Issue
  timestamp : Nat
  deriving DecidableEq, Repr

/-- `ValidationResult.Finalize`: stamp the time and set `valid` to
`false` exactly when some issue has severity `"error"`.  The clock
reading is passed explicitly. -/
def ValidationResult.finalize (vr : ValidationResult) (now : Nat) :
    ValidationResult :=
  { vr with
    timestamp := now
    valid := !(vr.issues.any fun i => i.severity == "error") }

/-- Summary counters of a cluster validation report. -/
structure ValidationSummary where
  errors : Nat
  warnings : Nat
  info : Nat
  deriving DecidableEq, Repr

/-- A complete cluster validation report. -/
structure ClusterValidationReport where
  totalResources : Nat
  validResources : Nat
  results : List ValidationResult
  summary : ValidationSummary
  timestamp : Nat
  deriving DecidableEq, Repr

/-- `ClusterValidationReport.AddResult`: append the result, bump the
counters, and tally issue severities into the summary. -/
def ClusterValidationReport.addResult (r : ClusterValidationReport)
    (vr : ValidationResult) : ClusterValidationReport :=
  { r with
    results := r.results ++ [vr]
    totalResources := r.totalResources + 1
    validResources := r.validResources + (if vr.valid then 1 else 0)
    summary := vr.issues.foldl (fun s i =>
      if i.severity = "error" then { s with errors := s.errors + 1 }
      else if i.severity = "warning" then { s with warnings := s.warnings + 1 }
      else if i.severity = "info" then { s with info := s.info + 1 }
      else s) r.summary }

/-- `addResultsToReport`: drop results not matching a requested
resource name; when warnings are excluded keep only `"error"` issues
and recompute `valid`; add the rest to the report. -/
def addResultsToReport (report : ClusterValidationReport)
    (results : List ValidationResult) (resourceName : String)
    (includeWarnings : Bool) : ClusterValidationReport :=
  results.foldl (fun rep result =>
    if resourceName ≠ "" ∧ result.name ≠ resourceName then rep
    else
      let result := if includeWarnings then result
        else
          let filtered := result.issues.filter fun i => i.severity == "error"
          { result with issues := filtered, valid := filtered.isEmpty }
      rep.addResult result) report

/-- The per-validator `ValidateAll` outputs, supplied as a snapshot
(the cluster reads of the four validators, keyed by the namespace
argument where the Go code passes one). -/
structure ValidatorEnv where
  serverResults : String → List ValidationResult
  authPolicyResults : String → List ValidationResult
  meshTLSResults : String → List ValidationResult
  proxyAllNamespaces : List ValidationResult
  proxyPodsInNamespace : String → List ValidationResult

/-- Result of `ValidateConfig`: an MCP error result or the aggregated
report. -/
inductive ValidateOut where
  | errorResult (msg : String)
  | reportResult (r : ClusterValidationReport)
  deriving Repr

/-- The empty report `ValidateConfig` starts from. -/
def emptyReport : ClusterValidationReport :=
  { totalResources := 0, validResources := 0, results := [],
    summary := { errors := 0, warnings := 0, info := 0 }, timestamp := 0 }

/-- `ValidateConfig`: dispatch on `resourceType` (the Go `switch`,
including its alias case labels), aggregate the selected validators'
results, stamp the report; an unrecognized value yields the fixed
user-facing error result. -/
def ValidateConfig (env : ValidatorEnv)
    (ns resourceType resourceName : String) (includeWarnings : Bool)
    (now : Nat) : ValidateOut :=
  let report := emptyReport
  if resourceType = "server" then
    .reportResult { addResultsToReport report (env.serverResults ns)
      resourceName includeWarnings with timestamp := now }
  else if resourceType = "authpolicy" ∨ resourceType = "authorizationpolicy" then
    .reportResult { addResultsToReport report (env.authPolicyResults ns)
      resourceName includeWarnings with timestamp := now }
  else if resourceType = "meshtls" ∨ resourceType = "meshtlsauthentication" then
    .reportResult { addResultsToReport report (env.meshTLSResults ns)
      resourceName includeWarnings with timestamp := now }
  else if resourceType = "proxy" ∨ resourceType = "namespace" then
    let results := if ns = "" then env.proxyAllNamespaces
      else env.proxyPodsInNamespace ns
    .reportResult { addResultsToReport report results
      resourceName includeWarnings with timestamp := now }
  else if resourceType = "all" ∨ resourceType = "" then
    let report := addResultsToReport report (env.serverResults ns)
      resourceName includeWarnings
    let report := addResultsToReport report (env.authPolicyResults ns)
      resourceName includeWarnings
    let report := addResultsToReport report (env.meshTLSResults ns)
      resourceName includeWarnings
    let proxyResults := if ns = "" then env.proxyAllNamespaces
      else env.proxyPodsInNamespace ns
    let report := addResultsToReport report proxyResults
      resourceName includeWarnings
    .reportResult { report with timestamp := now }
  else
    .errorResult "Invalid resource_type. Must be one of: server, authpolicy, meshtls, proxy, all"

/-! ## Generic helper lemmas -/

theorem foldl_preserve {α β : Type} {P : β → Prop} {f : β → α → β}
    (h : ∀ b a, P b → P (f b a)) :
    ∀ (l : List α) (b : β), P b → P (l.foldl f b) := by
  intro l
  induction l with
  | nil => intro b hb; exact hb
  | cons a l ih => intro b hb; exact ih (f b a) (h b a hb)

theorem foldl_establish {α β : Type} {P : β → Prop} {f : β → α → β}
    (hstep : ∀ b a, P b → P (f b a)) {x : α} (hx : ∀ b, P (f b x)) :
    ∀ (l : List α) (b : β), x ∈ l → P (l.foldl f b) := by
  intro l
  induction l with
  | nil => intro b hb; cases hb
  | cons a l ih =>
    intro b hb
    rcases List.mem_cons.mp hb with rfl | hb
    · exact foldl_preserve hstep l (f b x) (hx b)
    · exact ih (f b a) hb

theorem alookup_eq_some_iff {β : Type} {l : List (String × β)}
    (h : keysNodup l) (k : String) (v : β) :
    alookup k l = some v ↔ (k, v) ∈ l := by
  induction l with
  | nil => simp [alookup]
  | cons kv rest ih =>
    obtain ⟨a, b⟩ := kv
    rw [keysNodup, List.map_cons, List.nodup_cons] at h
    rw [alookup]
    by_cases hk : a = k
    · subst hk
      rw [if_pos rfl]
      simp only [List.mem_cons, Option.some.injEq, Prod.mk.injEq, true_and]
      constructor
      · rintro rfl; left; rfl
      · rintro (h1 | h1)
        · exact h1.symm
        · exact absurd (List.mem_map_of_mem Prod.fst h1) h.1
    · rw [if_neg hk, ih h.2]
      simp only [List.mem_cons, Prod.mk.injEq]
      constructor
      · intro h1; right; exact h1
      · rintro (⟨h1, _⟩ | h1)
        · exact absurd h1.symm hk
        · exact h1

theorem alookup_mem {β : Type} {l : List (String × β)} {k : String} {v : β}
    (h : alookup k l = some v) : (k, v) ∈ l := by
  induction l with
  | nil => simp [alookup] at h
  | cons kv rest ih =>
    obtain ⟨a, b⟩ := kv
    rw [alookup] at h
    by_cases hk : a = k
    · rw [if_pos hk] at h
      obtain rfl := Option.some.inj h
      subst hk
      exact List.mem_cons_self _ _
    · rw [if_neg hk] at h
      exact List.mem_cons_of_mem _ (ih h)

/-! ## Claim C8 -/

/-- Claim C8: after `Finalize()`, the `Valid` field is `false` iff at
least one issue has severity `"error"`; warnings and info alone never
make it false. -/
theorem finalize_valid_iff (vr : ValidationResult) (now : Nat) :
    ((vr.finalize now).valid = false ↔ ∃ i ∈ vr.issues, i.severity = "error") := by
  simp [ValidationResult.finalize, List.any_eq_true]

/-! ## Claim C9 -/

/-- Claim C9: `AnalyzeConnectivity` is a fixed placeholder: it always
reports `allowed = true`, an empty policy list and the pending
explanation, consults no policy objects (it takes none), echoes its
inputs, and defaults the target namespace to the source namespace when
empty. -/
theorem analyzeConnectivity_fixed (sourceNs sourceService targetNs targetService : String) :
    (AnalyzeConnectivity sourceNs sourceService targetNs targetService).allowed = true
    ∧ (AnalyzeConnectivity sourceNs sourceService targetNs targetService).policies = []
    ∧ (AnalyzeConnectivity sourceNs sourceService targetNs targetService).explanation =
        "Policy analysis implementation pending - requires Linkerd CRD integration"
    ∧ (AnalyzeConnectivity sourceNs sourceService targetNs targetService).sourceNs = sourceNs
    ∧ (AnalyzeConnectivity sourceNs sourceService targetNs targetService).sourceService = sourceService
    ∧ (AnalyzeConnectivity sourceNs sourceService targetNs targetService).targetService = targetService
    ∧ (AnalyzeConnectivity sourceNs sourceService targetNs targetService).targetNs =
        (if targetNs = "" then sourceNs else targetNs) := by
  refine ⟨rfl, rfl, rfl, rfl, rfl, rfl, rfl⟩

/-! ## Claim C1 -/

theorem authMatches_iff (a : AuthObj) (serverNs srcNs srcSA : String) :
    (authMatches a serverNs srcNs srcSA = true ↔
      (∃ s ∈ a.identities.getD [], s = canonicalIdentity srcSA srcNs ∨ s = "*")
      ∨ (∃ sa ∈ a.serviceAccounts.getD [],
          sa.name = srcSA ∧ (if sa.ns = "" then serverNs else sa.ns) = srcNs)) := by
  unfold authMatches
  cases a.identities <;> cases a.serviceAccounts <;>
    simp [List.any_eq_true, Bool.or_eq_true, Bool.and_eq_true]

theorem checkAuthenticationMatch_iff (fetch : AuthFetch)
    (serverNs authName authKind srcNs srcSA : String) :
    (checkAuthenticationMatch fetch serverNs authName authKind srcNs srcSA = true ↔
      ∃ a, fetch (resourceForKind authKind) serverNs authName = some a ∧
        ((∃ s ∈ a.identities.getD [], s = canonicalIdentity srcSA srcNs ∨ s = "*")
         ∨ (∃ sa ∈ a.serviceAccounts.getD [],
             sa.name = srcSA ∧ (if sa.ns = "" then serverNs else sa.ns) = srcNs))) := by
  unfold checkAuthenticationMatch
  cases h : fetch (resourceForKind authKind) serverNs authName with
  | none => simp [h]
  | some a => simp [h, authMatches_iff]

/-- Claim C1: `checkSourceAllowed` returns `true` iff the policy has a
non-empty `requiredAuthenticationRefs` list and some ref of kind
`MeshTLSAuthentication` or `NetworkAuthentication` resolves (from the
Server's namespace) to an object with an `identities` entry equal to
the canonical identity or to `"*"`, or a `serviceAccounts` entry whose
name is the source service account and whose namespace (defaulting to
the Server's namespace) is the source namespace; in particular every
policy with empty or missing `requiredAuthenticationRefs` yields
`false` for every source. -/
theorem checkSourceAllowed_iff (fetch : AuthFetch) (p : AuthorizationPolicy)
    (serverNs srcNs srcSA : String) :
    ((checkSourceAllowed fetch p serverNs srcNs srcSA = true ↔
      ∃ refs, p.requiredAuthenticationRefs = some refs ∧ refs ≠ [] ∧
        ∃ r ∈ refs,
          (r.kind = "MeshTLSAuthentication" ∨ r.kind = "NetworkAuthentication") ∧
          ∃ a, fetch (resourceForKind r.kind) serverNs r.name = some a ∧
            ((∃ s ∈ a.identities.getD [], s = canonicalIdentity srcSA srcNs ∨ s = "*")
             ∨ (∃ sa ∈ a.serviceAccounts.getD [],
                 sa.name = srcSA ∧ (if sa.ns = "" then serverNs else sa.ns) = srcNs)))
    ∧ ∀ q : AuthorizationPolicy,
        (q.requiredAuthenticationRefs = none ∨ q.requiredAuthenticationRefs = some []) →
        checkSourceAllowed fetch q serverNs srcNs srcSA = false) := by
  constructor
  · unfold checkSourceAllowed
    cases hp : p.requiredAuthenticationRefs with
    | none => simp
    | some refs =>
      simp only [List.any_eq_true, Bool.and_eq_true, Bool.or_eq_true, beq_iff_eq,
        Option.some.injEq]
      constructor
      · rintro ⟨r, hr, hkind, hmatch⟩
        exact ⟨refs, rfl, List.ne_nil_of_mem hr, r, hr, hkind,
          (checkAuthenticationMatch_iff fetch serverNs r.name r.kind srcNs srcSA).mp hmatch⟩
      · rintro ⟨refs', hrefs, -, r, hr, hkind, hmatch⟩
        obtain rfl := hrefs
        exact ⟨r, hr, hkind,
          (checkAuthenticationMatch_iff fetch serverNs r.name r.kind srcNs srcSA).mpr hmatch⟩
  · intro q hq
    unfold checkSourceAllowed
    rcases hq with hq | hq <;> simp [hq]

/-- Witness for C1: a policy with no `requiredAuthenticationRefs` is
rejected for a concrete source. -/
theorem checkSourceAllowed_iff_witness :
    checkSourceAllowed (fun _ _ _ => none)
      { name := "p", ns := "prod", targetRef := none,
        requiredAuthenticationRefs := none } "prod" "prod" "frontend-sa" = false :=
  (checkSourceAllowed_iff (fun _ _ _ => none)
    { name := "p", ns := "prod", targetRef := none,
      requiredAuthenticationRefs := none } "prod" "prod" "frontend-sa").2
    _ (Or.inl rfl)

/-! ## Claim C10 -/

theorem checkAuthenticationMatch_fetch_congr (fetch g : AuthFetch)
    (serverNs authName authKind srcNs srcSA : String)
    (hfetch : ∀ res name, fetch res serverNs name = g res serverNs name) :
    checkAuthenticationMatch fetch serverNs authName authKind srcNs srcSA =
      checkAuthenticationMatch g serverNs authName authKind srcNs srcSA := by
  unfold checkAuthenticationMatch
  rw [hfetch]

theorem refsAny_congr (fetch g : AuthFetch) (serverNs srcNs srcSA : String)
    (hfetch : ∀ res name, fetch res serverNs name = g res serverNs name)
    {refs refs' : List AuthRef}
    (hsame : List.Forall₂ (fun a b => a.kind = b.kind ∧ a.name = b.name) refs refs') :
    (refs.any fun r =>
      (r.kind == "MeshTLSAuthentication" || r.kind == "NetworkAuthentication")
      && checkAuthenticationMatch fetch serverNs r.name r.kind srcNs srcSA)
    = (refs'.any fun r =>
      (r.kind == "MeshTLSAuthentication" || r.kind == "NetworkAuthentication")
      && checkAuthenticationMatch g serverNs r.name r.kind srcNs srcSA) := by
  induction hsame with
  | nil => rfl
  | cons hab hrest ih =>
    simp only [List.any_cons]
    rw [ih, hab.1, hab.2,
      checkAuthenticationMatch_fetch_congr fetch g serverNs _ _ srcNs srcSA hfetch]

/-- Claim C10: the `namespace` field of a `requiredAuthenticationRefs`
entry is ignored: only `kind` and `name` are read, and the referenced
object is fetched from the Server's namespace (two fetch environments
agreeing on the Server's namespace are indistinguishable), so two
policies whose ref lists agree on kind and name give identical
authorization outcomes. -/
theorem refNamespace_ignored (fetch g : AuthFetch)
    (p q : AuthorizationPolicy) (serverNs srcNs srcSA : String)
    (hfetch : ∀ res name, fetch res serverNs name = g res serverNs name)
    (refs refs' : List AuthRef)
    (hp : p.requiredAuthenticationRefs = some refs)
    (hq : q.requiredAuthenticationRefs = some refs')
    (hsame : List.Forall₂ (fun a b => a.kind = b.kind ∧ a.name = b.name) refs refs') :
    checkSourceAllowed fetch p serverNs srcNs srcSA =
      checkSourceAllowed g q serverNs srcNs srcSA := by
  unfold checkSourceAllowed
  rw [hp, hq]
  exact refsAny_congr fetch g serverNs srcNs srcSA hfetch hsame

/-- Witness for C10: two one-ref policies differing only in the ref's
namespace field evaluate identically. -/
theorem refNamespace_ignored_witness :
    checkSourceAllowed (fun _ _ _ => none)
      { name := "p", ns := "prod", targetRef := none,
        requiredAuthenticationRefs :=
          some [{ kind := "MeshTLSAuthentication", name := "a", ns := "ns1" }] }
      "prod" "prod" "sa"
    = checkSourceAllowed (fun _ _ _ => none)
      { name := "p", ns := "prod", targetRef := none,
        requiredAuthenticationRefs :=
          some [{ kind := "MeshTLSAuthentication", name := "a", ns := "ns2" }] }
      "prod" "prod" "sa" :=
  refNamespace_ignored (fun _ _ _ => none) (fun _ _ _ => none) _ _ _ _ _
    (fun _ _ => rfl) _ _ rfl rfl (List.Forall₂.cons ⟨rfl, rfl⟩ List.Forall₂.nil)

/-! ## Claim C5 -/

/-- Forget the `networks` field of an authentication object. -/
def stripNetworks (a : AuthObj) : AuthObj := { a with networks := none }

theorem authMatches_congr (a b : AuthObj)
    (hid : a.identities = b.identities)
    (hsa : a.serviceAccounts = b.serviceAccounts)
    (serverNs srcNs srcSA : String) :
    authMatches a serverNs srcNs srcSA = authMatches b serverNs srcNs srcSA := by
  unfold authMatches
  rw [hid, hsa]

/-- Claim C5: the `networks` field is never consulted by
identity-based forward authorization: fetch environments whose objects
agree after dropping `networks` are indistinguishable to
`checkAuthenticationMatch`, and a NetworkAuthentication whose
`identities` and `serviceAccounts` lists are both empty or absent
never authorizes any source, whatever its `networks` contain. -/
theorem networks_never_consulted (f g : AuthFetch)
    (h : ∀ res ns name,
      (f res ns name).map stripNetworks = (g res ns name).map stripNetworks) :
    ((∀ serverNs authName authKind srcNs srcSA,
        checkAuthenticationMatch f serverNs authName authKind srcNs srcSA =
          checkAuthenticationMatch g serverNs authName authKind srcNs srcSA)
     ∧ (∀ serverNs authName srcNs srcSA a,
         f "networkauthentications" serverNs authName = some a →
         a.identities.getD [] = [] → a.serviceAccounts.getD [] = [] →
         checkAuthenticationMatch f serverNs authName "NetworkAuthentication"
           srcNs srcSA = false)) := by
  constructor
  · intro serverNs authName authKind srcNs srcSA
    unfold checkAuthenticationMatch
    have h' := h (resourceForKind authKind) serverNs authName
    cases hf : f (resourceForKind authKind) serverNs authName with
    | none =>
      rw [hf] at h'
      cases hg : g (resourceForKind authKind) serverNs authName with
      | none => rfl
      | some b => rw [hg] at h'; simp at h'
    | some a =>
      rw [hf] at h'
      cases hg : g (resourceForKind authKind) serverNs authName with
      | none => rw [hg] at h'; simp at h'
      | some b =>
        rw [hg] at h'
        simp only [Option.map_some', Option.some.injEq] at h'
        have h1 := congrArg AuthObj.identities h'
        have h2 := congrArg AuthObj.serviceAccounts h'
        exact authMatches_congr a b h1 h2 serverNs srcNs srcSA
  · intro serverNs authName srcNs srcSA a hf hid hsa
    unfold checkAuthenticationMatch
    rw [show resourceForKind "NetworkAuthentication" = "networkauthentications" from rfl,
      hf]
    obtain ⟨ids, sas, nets⟩ := a
    simp only at hid hsa
    unfold authMatches
    cases ids with
    | none =>
      cases sas with
      | none => rfl
      | some l =>
        simp only [Option.getD_some] at hsa
        subst hsa
        rfl
    | some l =>
      simp only [Option.getD_some] at hid
      subst hid
      cases sas with
      | none => rfl
      | some l' =>
        simp only [Option.getD_some] at hsa
        subst hsa
        rfl

/-- A concrete authentication object with empty identity and service
account lists but a non-empty network list. -/
def authNetworksOnly : AuthObj :=
  { identities := some [], serviceAccounts := some [],
    networks := some [{ cidr := "10.0.0.0/8", except := [] }] }

/-- Witness for C5: a networks-only authentication object authorizes
nobody. -/
theorem networks_never_consulted_witness :
    checkAuthenticationMatch (fun _ _ _ => some authNetworksOnly)
      "prod" "netauth" "NetworkAuthentication" "prod" "sa" = false :=
  (networks_never_consulted (fun _ _ _ => some authNetworksOnly)
    (fun _ _ _ => some authNetworksOnly) (fun _ _ _ => rfl)).2
    "prod" "netauth" "prod" "sa" authNetworksOnly rfl rfl rfl

/-! ## Claim C2 -/

theorem labelsOverlap_iff (a b : Labels) (hb : keysNodup b) :
    (labelsOverlap a b = true ↔
      a = [] ∨ b = [] ∨ ∃ k v, (k, v) ∈ a ∧ (k, v) ∈ b) := by
  unfold labelsOverlap
  by_cases ha : a = []
  · simp [ha]
  · by_cases hbe : b = []
    · simp [hbe]
    · rw [if_neg (by simp [List.isEmpty_iff, ha, hbe])]
      simp only [List.any_eq_true]
      constructor
      · rintro ⟨⟨k, v⟩, hkv, hmatch⟩
        refine Or.inr (Or.inr ⟨k, v, hkv, ?_⟩)
        cases hl : alookup k b with
        | none => rw [hl] at hmatch; simp at hmatch
        | some v2 =>
          rw [hl] at hmatch
          simp only [beq_iff_eq] at hmatch
          obtain rfl := hmatch
          exact alookup_mem hl
      · rintro (rfl | rfl | ⟨k, v, hka, hkb⟩)
        · exact absurd rfl ha
        · exact absurd rfl hbe
        · refine ⟨(k, v), hka, ?_⟩
          rw [(alookup_eq_some_iff hb k v).mpr hkb]
          simp

theorem labelsOverlap_symm (a b : Labels) (ha : keysNodup a) (hb : keysNodup b) :
    labelsOverlap a b = labelsOverlap b a := by
  rw [Bool.eq_iff_iff, labelsOverlap_iff a b hb, labelsOverlap_iff b a ha]
  constructor
  · rintro (h | h | ⟨k, v, h1, h2⟩)
    · exact Or.inr (Or.inl h)
    · exact Or.inl h
    · exact Or.inr (Or.inr ⟨k, v, h2, h1⟩)
  · rintro (h | h | ⟨k, v, h1, h2⟩)
    · exact Or.inr (Or.inl h)
    · exact Or.inl h
    · exact Or.inr (Or.inr ⟨k, v, h2, h1⟩)

theorem checkConflicts_mem (S T : Server) (servers : List Server)
    (hT : T ∈ servers) (hns : T.ns = S.ns) (hname : T.name ≠ S.name)
    (hport : S.port.getD 0 = T.port.getD 0)
    (hover : labelsOverlap (S.matchLabels.getD []) (T.matchLabels.getD []) = true) :
    T.name ∈ checkConflicts S servers := by
  unfold checkConflicts
  refine List.mem_map.mpr ⟨T, ?_, rfl⟩
  refine List.mem_filter.mpr ⟨List.mem_filter.mpr ⟨hT, ?_⟩, ?_⟩
  · simp [hns]
  · simp [bne_iff_ne, hname, hport, hover]

/-- Claim C2: `labelsOverlap a b` is true exactly when `a` is empty,
`b` is empty, or the two share a key mapped to the same value; it is
symmetric; hence two distinct Servers of the same namespace with equal
port and a shared label pair are each flagged as conflicting with the
other by the conflict validator. -/
theorem labelsOverlap_conflicts (a b : Labels) (ha : keysNodup a) (hb : keysNodup b)
    (S1 S2 : Server) (servers : List Server)
    (h1 : keysNodup (S1.matchLabels.getD [])) (h2 : keysNodup (S2.matchLabels.getD []))
    (hname : S1.name ≠ S2.name) (hns : S1.ns = S2.ns) (hport : S1.port = S2.port)
    (hshare : ∃ k v, (k, v) ∈ S1.matchLabels.getD [] ∧ (k, v) ∈ S2.matchLabels.getD [])
    (hm1 : S1 ∈ servers) (hm2 : S2 ∈ servers) :
    ((labelsOverlap a b = true ↔
        a = [] ∨ b = [] ∨ ∃ k v, (k, v) ∈ a ∧ (k, v) ∈ b)
     ∧ labelsOverlap a b = labelsOverlap b a
     ∧ S2.name ∈ checkConflicts S1 servers
     ∧ S1.name ∈ checkConflicts S2 servers) := by
  obtain ⟨k, v, hk1, hk2⟩ := hshare
  refine ⟨labelsOverlap_iff a b hb, labelsOverlap_symm a b ha hb, ?_, ?_⟩
  · exact checkConflicts_mem S1 S2 servers hm2 hns.symm (Ne.symm hname)
      (by rw [hport])
      ((labelsOverlap_iff _ _ h2).mpr (Or.inr (Or.inr ⟨k, v, hk1, hk2⟩)))
  · exact checkConflicts_mem S2 S1 servers hm1 hns hname
      (by rw [hport])
      ((labelsOverlap_iff _ _ h1).mpr (Or.inr (Or.inr ⟨k, v, hk2, hk1⟩)))

/-- Witness for C2 at two concrete conflicting Servers. -/
theorem labelsOverlap_conflicts_witness :
    ((labelsOverlap [("app", "x")] [("app", "x")] = true ↔
        ([("app", "x")] : Labels) = [] ∨ ([("app", "x")] : Labels) = [] ∨
          ∃ k v, (k, v) ∈ ([("app", "x")] : Labels) ∧ (k, v) ∈ ([("app", "x")] : Labels))
     ∧ labelsOverlap [("app", "x")] [("app", "x")] =
         labelsOverlap [("app", "x")] [("app", "x")]
     ∧ "s2" ∈ checkConflicts
         { name := "s1", ns := "prod", port := some 8080,
           matchLabels := some [("app", "x")] }
         [{ name := "s1", ns := "prod", port := some 8080,
            matchLabels := some [("app", "x")] },
          { name := "s2", ns := "prod", port := some 8080,
            matchLabels := some [("app", "x")] }]
     ∧ "s1" ∈ checkConflicts
         { name := "s2", ns := "prod", port := some 8080,
           matchLabels := some [("app", "x")] }
         [{ name := "s1", ns := "prod", port := some 8080,
            matchLabels := some [("app", "x")] },
          { name := "s2", ns := "prod", port := some 8080,
            matchLabels := some [("app", "x")] }]) := by
  have h := labelsOverlap_conflicts [("app", "x")] [("app", "x")]
    (by unfold keysNodup; decide) (by unfold keysNodup; decide)
    { name := "s1", ns := "prod", port := some 8080, matchLabels := some [("app", "x")] }
    { name := "s2", ns := "prod", port := some 8080, matchLabels := some [("app", "x")] }
    [{ name := "s1", ns := "prod", port := some 8080, matchLabels := some [("app", "x")] },
     { name := "s2", ns := "prod", port := some 8080, matchLabels := some [("app", "x")] }]
    (by unfold keysNodup; decide) (by unfold keysNodup; decide) (by decide) rfl rfl
    ⟨"app", "x", by decide, by decide⟩ (by decide) (by decide)
  exact ⟨h.1, h.2.1, h.2.2.1, h.2.2.2⟩

/-! ## Claim C4 -/

/-- Claim C4: when no pod of the namespace carries label
`app=<workload>`, `GetAllowedTargets` returns the error result whose
text is exactly
`no pods found for service <workload> in namespace <namespace>`, and
no target list is produced. -/
theorem getAllowedTargets_no_pods (fetch : AuthFetch) (pods : List Pod)
    (servers : List Server) (policies : List AuthorizationPolicy)
    (ns w : String)
    (h : ∀ p ∈ pods, p.ns = ns → alookup "app" p.labels ≠ some w) :
    GetAllowedTargets fetch pods servers policies ns w =
      .errorResult ("no pods found for service " ++ w ++ " in namespace " ++ ns) := by
  unfold GetAllowedTargets getServiceAccountForService
  have hfilter :
      pods.filter (fun p => p.ns == ns && alookup "app" p.labels == some w) = [] := by
    rw [List.filter_eq_nil_iff]
    intro p hp
    simp only [Bool.and_eq_true, beq_iff_eq, not_and]
    intro hns
    exact h p hp hns
  rw [hfilter]

/-- Witness for C4 on an empty pod collection. -/
theorem getAllowedTargets_no_pods_witness :
    GetAllowedTargets (fun _ _ _ => none) [] [] [] "prod" "nonexistent" =
      .errorResult "no pods found for service nonexistent in namespace prod" :=
  getAllowedTargets_no_pods (fun _ _ _ => none) [] [] [] "prod" "nonexistent"
    (fun p hp => absurd hp (List.not_mem_nil p))

/-! ## Claim C7 -/

/-- Claim C7: when no Server of the target namespace has a
`podSelector.matchLabels` whose `app` entry equals the workload,
`GetAllowedSources` returns the non-error text result
`No Linkerd Servers found for service <workload> in namespace <namespace>`. -/
theorem getAllowedSources_no_servers (fetch : AuthFetch)
    (servers : List Server) (policies : List AuthorizationPolicy)
    (ns w : String)
    (h : ∀ s ∈ servers, s.ns = ns →
      ∀ ml, s.matchLabels = some ml → alookup "app" ml ≠ some w) :
    GetAllowedSources fetch servers policies ns w =
      .messageResult ("No Linkerd Servers found for service " ++ w
        ++ " in namespace " ++ ns) := by
  unfold GetAllowedSources
  have hm : findServersForService servers ns w = [] := by
    unfold findServersForService
    rw [List.map_eq_nil_iff, List.filter_eq_nil_iff]
    intro s hs
    have hsns : s.ns = ns := by
      have := (List.mem_filter.mp hs).2
      simpa using this
    have hsmem := List.mem_of_mem_filter hs
    cases hml : s.matchLabels with
    | none => simp
    | some ml =>
      show ¬((alookup "app" ml == some w) = true)
      simp only [beq_iff_eq]
      exact h s hsmem hsns ml hml
  rw [hm]
  rfl

/-- Witness for C7: the spec's example `AllowedSources("prod",
"backend")` with no Servers present. -/
theorem getAllowedSources_no_servers_witness :
    GetAllowedSources (fun _ _ _ => none) [] [] "prod" "backend" =
      .messageResult "No Linkerd Servers found for service backend in namespace prod" :=
  getAllowedSources_no_servers (fun _ _ _ => none) [] [] "prod" "backend"
    (fun s hs => absurd hs (List.not_mem_nil s))

/-! ## Claim C6 -/

/-- The resource types the `ValidateConfig` dispatch actually accepts:
the five documented values plus the aliases `authorizationpolicy`,
`meshtlsauthentication` and `namespace` and the empty string (treated
as `all`). -/
def validResourceTypes : List String :=
  ["server", "authpolicy", "authorizationpolicy", "meshtls",
   "meshtlsauthentication", "proxy", "namespace", "all", ""]

/-- Claim C6 (amended): `ValidateConfig` returns a report for every
resource type in `validResourceTypes` and the fixed user-facing error
result for every other value. -/
theorem validateConfig_dispatch (env : ValidatorEnv) (ns rt rn : String)
    (iw : Bool) (now : Nat) :
    ((rt ∈ validResourceTypes →
        ∃ r, ValidateConfig env ns rt rn iw now = .reportResult r)
     ∧ (rt ∉ validResourceTypes →
        ValidateConfig env ns rt rn iw now =
          .errorResult "Invalid resource_type. Must be one of: server, authpolicy, meshtls, proxy, all")) := by
  constructor
  · intro hmem
    simp only [validResourceTypes, List.mem_cons, List.not_mem_nil, or_false] at hmem
    unfold ValidateConfig
    rcases hmem with rfl | rfl | rfl | rfl | rfl | rfl | rfl | rfl | rfl <;>
      exact ⟨_, rfl⟩
  · intro hmem
    simp only [validResourceTypes, List.mem_cons, List.not_mem_nil, or_false] at hmem
    push_neg at hmem
    obtain ⟨h1, h2, h3, h4, h5, h6, h7, h8, h9⟩ := hmem
    unfold ValidateConfig
    rw [if_neg h1, if_neg (not_or.mpr ⟨h2, h3⟩), if_neg (not_or.mpr ⟨h4, h5⟩),
      if_neg (not_or.mpr ⟨h6, h7⟩), if_neg (not_or.mpr ⟨h8, h9⟩)]

/-- Witness for C6 (amended): dispatch at one accepted and one
rejected resource type. -/
theorem validateConfig_dispatch_witness :
    ((∃ r, ValidateConfig
        { serverResults := fun _ => [], authPolicyResults := fun _ => [],
          meshTLSResults := fun _ => [], proxyAllNamespaces := [],
          proxyPodsInNamespace := fun _ => [] } "" "server" "" true 0 =
          .reportResult r)
     ∧ ValidateConfig
        { serverResults := fun _ => [], authPolicyResults := fun _ => [],
          meshTLSResults := fun _ => [], proxyAllNamespaces := [],
          proxyPodsInNamespace := fun _ => [] } "" "bogus" "" true 0 =
          .errorResult "Invalid resource_type. Must be one of: server, authpolicy, meshtls, proxy, all") := by
  constructor
  · exact (validateConfig_dispatch _ "" "server" "" true 0).1 (by decide)
  · exact (validateConfig_dispatch _ "" "bogus" "" true 0).2 (by decide)

/-- Counterexample to C6 as stated: `"authorizationpolicy"` is outside
the claimed set `{server, authpolicy, meshtls, proxy, all}`, yet
`ValidateConfig` returns a report for it, not the error result. -/
theorem validateConfig_alias_counterexample :
    (("authorizationpolicy" ∉
        (["server", "authpolicy", "meshtls", "proxy", "all"] : List String))
     ∧ ValidateConfig
        { serverResults := fun _ => [], authPolicyResults := fun _ => [],
          meshTLSResults := fun _ => [], proxyAllNamespaces := [],
          proxyPodsInNamespace := fun _ => [] } "" "authorizationpolicy" "" true 0 =
          .reportResult emptyReport
     ∧ ValidateConfig
        { serverResults := fun _ => [], authPolicyResults := fun _ => [],
          meshTLSResults := fun _ => [], proxyAllNamespaces := [],
          proxyPodsInNamespace := fun _ => [] } "" "authorizationpolicy" "" true 0 ≠
          .errorResult "Invalid resource_type. Must be one of: server, authpolicy, meshtls, proxy, all") := by
  refine ⟨by decide, rfl, fun h => ValidateOut.noConfusion h⟩

/-! ## Claim C3: map infrastructure -/

theorem alookup_filter_ne {β : Type} (m : List (String × β)) (k k' : String) :
    alookup k' (m.filter fun kv => kv.1 != k) =
      if k' = k then none else alookup k' m := by
  induction m with
  | nil => by_cases h : k' = k <;> simp [alookup, h]
  | cons kv rest ih =>
    obtain ⟨a, b⟩ := kv
    by_cases hak : a = k
    · subst hak
      rw [List.filter_cons_of_neg (by simp), ih]
      by_cases hk : k' = a
      · simp [hk]
      · simp only [if_neg hk]
        rw [alookup, if_neg (fun hh : a = k' => hk hh.symm)]
    · rw [List.filter_cons_of_pos (by simp [hak]), alookup]
      by_cases hak' : a = k'
      · subst hak'
        rw [if_pos rfl, if_neg (fun hh : a = k => hak hh), alookup, if_pos rfl]
      · rw [if_neg hak', ih]
        by_cases hk : k' = k
        · simp [hk]
        · simp only [if_neg hk]
          rw [alookup, if_neg hak']

theorem alookup_mapInsert (m : SMap) (k k' : String) (v : SourceDesc) :
    alookup k' (mapInsert m k v) = if k' = k then some v else alookup k' m := by
  unfold mapInsert
  rw [alookup]
  by_cases hk : k = k'
  · subst hk
    rw [if_pos rfl, if_pos rfl]
  · rw [if_neg hk, if_neg (fun hh => hk hh.symm), alookup_filter_ne,
      if_neg (fun hh => hk hh.symm)]

theorem keysNodup_mapInsert {m : SMap} (h : keysNodup m) (k : String)
    (v : SourceDesc) : keysNodup (mapInsert m k v) := by
  unfold keysNodup mapInsert
  rw [List.map_cons, List.nodup_cons]
  constructor
  · intro hmem
    obtain ⟨kv, hkv, hfst⟩ := List.mem_map.mp hmem
    have := (List.mem_filter.mp hkv).2
    rw [hfst] at this
    simp at this
  · exact h.sublist ((List.filter_sublist _).map Prod.fst)

/-- A wildcard descriptor? -/
def isWild : SourceDesc → Bool
  | .wildcard _ _ => true
  | _ => false

/-- Well-formedness of one map entry: the key is the descriptor's key,
and only wildcard descriptors sit under the wildcard key. -/
def entryOK (kv : String × SourceDesc) : Prop :=
  kv.1 = descKey kv.2 ∧ (kv.1 = "all-authenticated" → isWild kv.2 = true)

/-- Invariant of every `sourcesMap` the engine builds (given that no
plain identity string is the literal `"all-authenticated"`). -/
def smapOK (m : SMap) : Prop :=
  keysNodup m ∧ ∀ kv ∈ m, entryOK kv

theorem smapOK_nil : smapOK [] :=
  ⟨List.nodup_nil, fun _ h => absurd h (List.not_mem_nil _)⟩

theorem smapOK_insert {m : SMap} (h : smapOK m) {k : String} {v : SourceDesc}
    (hkv : entryOK (k, v)) : smapOK (mapInsert m k v) := by
  refine ⟨keysNodup_mapInsert h.1 k v, ?_⟩
  intro kv hm
  rcases List.mem_cons.mp hm with rfl | hm
  · exact hkv
  · exact h.2 kv (List.mem_of_mem_filter hm)

theorem slash_key_ne (a b : String) : a ++ "/" ++ b ≠ "all-authenticated" := by
  intro h
  have hmem : '/' ∈ (a ++ "/" ++ b).data := by
    rw [String.data_append, String.data_append]
    exact List.mem_append_left _ (List.mem_append_right _ (by decide))
  rw [h] at hmem
  revert hmem
  decide

theorem network_key_ne (c : String) : "network-" ++ c ≠ "all-authenticated" := by
  intro h
  have hmem : 'w' ∈ ("network-" ++ c).data := by
    rw [String.data_append]
    exact List.mem_append_left _ (by decide)
  rw [h] at hmem
  revert hmem
  decide

/-! ## Claim C3: invariant preservation through the folds -/

theorem processIdentities_smapOK {authName policyName : String}
    {ids : List String} (hids : "all-authenticated" ∉ ids)
    {m : SMap} (hm : smapOK m) :
    smapOK (processIdentities authName policyName m ids) := by
  induction ids generalizing m with
  | nil => exact hm
  | cons s rest ih =>
    rw [processIdentities, List.foldl_cons]
    rw [List.mem_cons, not_or] at hids
    refine ih hids.2 ?_
    by_cases hs : s = "*"
    · rw [if_pos hs]
      exact smapOK_insert hm ⟨rfl, fun _ => rfl⟩
    · rw [if_neg hs]
      exact smapOK_insert hm ⟨rfl, fun hk => absurd hk.symm hids.1⟩

theorem processServiceAccounts_smapOK {ns authName policyName : String}
    {sas : List ServiceAccountRef} {m : SMap} (hm : smapOK m) :
    smapOK (processServiceAccounts ns authName policyName m sas) := by
  unfold processServiceAccounts
  refine foldl_preserve ?_ sas m hm
  intro b sa hb
  exact smapOK_insert hb ⟨rfl, fun hk => absurd hk (slash_key_ne _ _)⟩

theorem processNetworks_smapOK {authName policyName : String}
    {nets : List NetworkRef} {m : SMap} (hm : smapOK m) :
    smapOK (processNetworks authName policyName m nets) := by
  unfold processNetworks
  refine foldl_preserve ?_ nets m hm
  intro b n hb
  exact smapOK_insert hb ⟨rfl, fun hk => absurd hk (network_key_ne _)⟩

/-- The global side condition of the amended C3: no fetched
authentication object carries a plain identity string equal to the
literal `"all-authenticated"` (which would collide with the wildcard
key). -/
def NoWildcardClash (fetch : AuthFetch) : Prop :=
  ∀ res ns name a, fetch res ns name = some a →
    "all-authenticated" ∉ a.identities.getD []

theorem applyIdentities_smapOK {authName policyName : String}
    {o : Option (List String)} (ho : "all-authenticated" ∉ o.getD [])
    {m : SMap} (hm : smapOK m) :
    smapOK (applyIdentities authName policyName m o) := by
  cases o with
  | none => exact hm
  | some ids => exact processIdentities_smapOK (by simpa using ho) hm

theorem applyServiceAccounts_smapOK {ns authName policyName : String}
    {o : Option (List ServiceAccountRef)} {m : SMap} (hm : smapOK m) :
    smapOK (applyServiceAccounts ns authName policyName m o) := by
  cases o with
  | none => exact hm
  | some sas => exact processServiceAccounts_smapOK hm

theorem applyNetworks_smapOK {authName policyName : String}
    {o : Option (List NetworkRef)} {m : SMap} (hm : smapOK m) :
    smapOK (applyNetworks authName policyName m o) := by
  cases o with
  | none => exact hm
  | some nets => exact processNetworks_smapOK hm

theorem extractSourcesFromAuth_smapOK {fetch : AuthFetch}
    (hno : NoWildcardClash fetch) (ns authName authKind policyName : String) :
    smapOK (extractSourcesFromAuth fetch ns authName authKind policyName) := by
  unfold extractSourcesFromAuth
  by_cases hkind : authKind = "MeshTLSAuthentication" ∨ authKind = "NetworkAuthentication"
  · rw [if_pos hkind]
    cases hf : fetch (if authKind = "MeshTLSAuthentication" then
        "meshtlsauthentications" else "networkauthentications") ns authName with
    | none => exact smapOK_nil
    | some a =>
      exact applyNetworks_smapOK
        (applyServiceAccounts_smapOK
          (applyIdentities_smapOK (hno _ _ _ _ hf) smapOK_nil))
  · rw [if_neg hkind]
    exact smapOK_nil

theorem mergeSources_smapOK {m src : SMap} (hm : smapOK m)
    (hsrc : ∀ kv ∈ src, entryOK kv) : smapOK (mergeSources m src) := by
  induction src generalizing m with
  | nil => exact hm
  | cons kv rest ih =>
    rw [mergeSources, List.foldl_cons]
    refine ih (smapOK_insert hm (hsrc kv (List.mem_cons_self _ _))) ?_
    intro kv' hkv'
    exact hsrc kv' (List.mem_cons_of_mem _ hkv')

theorem refStep_smapOK {fetch : AuthFetch} (hno : NoWildcardClash fetch)
    (ns policyName : String) {m : SMap} (hm : smapOK m) (r : AuthRef) :
    smapOK (refStep fetch ns policyName m r) :=
  mergeSources_smapOK hm
    (extractSourcesFromAuth_smapOK hno ns r.name r.kind policyName).2

theorem policyStep_smapOK {fetch : AuthFetch} (hno : NoWildcardClash fetch)
    (ns : String) (matchingServers : List String) {m : SMap}
    (hm : smapOK m) (p : AuthorizationPolicy) :
    smapOK (policyStep fetch ns matchingServers m p) := by
  unfold policyStep
  split
  · exact hm
  · split
    · split
      · exact hm
      · exact @foldl_preserve _ _ smapOK (refStep fetch ns p.name)
          (fun _ r hb => refStep_smapOK hno ns p.name hb r) _ m hm
    · exact hm

theorem findAllowedSources_smapOK {fetch : AuthFetch}
    (hno : NoWildcardClash fetch) (policies : List AuthorizationPolicy)
    (ns : String) (matchingServers : List String) :
    smapOK ((policies.filter fun p => p.ns == ns).foldl
      (policyStep fetch ns matchingServers) ([] : SMap)) :=
  @foldl_preserve _ _ smapOK (policyStep fetch ns matchingServers)
    (fun _ p hb => policyStep_smapOK hno ns matchingServers hb p)
    _ [] smapOK_nil

/-! ## Claim C3: unconditional key coherence (deduplication) -/

/-- The unconditional part of the map invariant: keys are pairwise
distinct and every entry sits under its descriptor's key.  This holds
for every input, clash or not. -/
def smapCoherent (m : SMap) : Prop :=
  keysNodup m ∧ ∀ kv ∈ m, kv.1 = descKey kv.2

theorem smapCoherent_nil : smapCoherent [] :=
  ⟨List.nodup_nil, fun _ h => absurd h (List.not_mem_nil _)⟩

theorem smapCoherent_insert {m : SMap} (h : smapCoherent m) {k : String}
    {v : SourceDesc} (hkv : k = descKey v) : smapCoherent (mapInsert m k v) := by
  refine ⟨keysNodup_mapInsert h.1 k v, ?_⟩
  intro kv hm
  rcases List.mem_cons.mp hm with rfl | hm
  · exact hkv
  · exact h.2 kv (List.mem_of_mem_filter hm)

theorem processIdentities_coherent {authName policyName : String}
    {ids : List String} {m : SMap} (hm : smapCoherent m) :
    smapCoherent (processIdentities authName policyName m ids) := by
  induction ids generalizing m with
  | nil => exact hm
  | cons s rest ih =>
    rw [processIdentities, List.foldl_cons]
    refine ih ?_
    by_cases hs : s = "*"
    · rw [if_pos hs]
      exact smapCoherent_insert hm rfl
    · rw [if_neg hs]
      exact smapCoherent_insert hm rfl

theorem processServiceAccounts_coherent {ns authName policyName : String}
    {sas : List ServiceAccountRef} {m : SMap} (hm : smapCoherent m) :
    smapCoherent (processServiceAccounts ns authName policyName m sas) := by
  unfold processServiceAccounts
  refine foldl_preserve ?_ sas m hm
  intro b sa hb
  exact smapCoherent_insert hb rfl

theorem processNetworks_coherent {authName policyName : String}
    {nets : List NetworkRef} {m : SMap} (hm : smapCoherent m) :
    smapCoherent (processNetworks authName policyName m nets) := by
  unfold processNetworks
  refine foldl_preserve ?_ nets m hm
  intro b n hb
  exact smapCoherent_insert hb rfl

theorem applyIdentities_coherent {authName policyName : String}
    {o : Option (List String)} {m : SMap} (hm : smapCoherent m) :
    smapCoherent (applyIdentities authName policyName m o) := by
  cases o with
  | none => exact hm
  | some ids => exact processIdentities_coherent hm

theorem applyServiceAccounts_coherent {ns authName policyName : String}
    {o : Option (List ServiceAccountRef)} {m : SMap} (hm : smapCoherent m) :
    smapCoherent (applyServiceAccounts ns authName policyName m o) := by
  cases o with
  | none => exact hm
  | some sas => exact processServiceAccounts_coherent hm

theorem applyNetworks_coherent {authName policyName : String}
    {o : Option (List NetworkRef)} {m : SMap} (hm : smapCoherent m) :
    smapCoherent (applyNetworks authName policyName m o) := by
  cases o with
  | none => exact hm
  | some nets => exact processNetworks_coherent hm

theorem extractSourcesFromAuth_coherent (fetch : AuthFetch)
    (ns authName authKind policyName : String) :
    smapCoherent (extractSourcesFromAuth fetch ns authName authKind policyName) := by
  unfold extractSourcesFromAuth
  by_cases hkind : authKind = "MeshTLSAuthentication" ∨ authKind = "NetworkAuthentication"
  · rw [if_pos hkind]
    cases fetch (if authKind = "MeshTLSAuthentication" then
        "meshtlsauthentications" else "networkauthentications") ns authName with
    | none => exact smapCoherent_nil
    | some a =>
      exact applyNetworks_coherent
        (applyServiceAccounts_coherent (applyIdentities_coherent smapCoherent_nil))
  · rw [if_neg hkind]
    exact smapCoherent_nil

theorem mergeSources_coherent {m src : SMap} (hm : smapCoherent m)
    (hsrc : ∀ kv ∈ src, kv.1 = descKey kv.2) :
    smapCoherent (mergeSources m src) := by
  induction src generalizing m with
  | nil => exact hm
  | cons kv rest ih =>
    rw [mergeSources, List.foldl_cons]
    refine ih (smapCoherent_insert hm (hsrc kv (List.mem_cons_self _ _))) ?_
    intro kv' hkv'
    exact hsrc kv' (List.mem_cons_of_mem _ hkv')

theorem refStep_coherent (fetch : AuthFetch) (ns policyName : String)
    {m : SMap} (hm : smapCoherent m) (r : AuthRef) :
    smapCoherent (refStep fetch ns policyName m r) :=
  mergeSources_coherent hm
    (extractSourcesFromAuth_coherent fetch ns r.name r.kind policyName).2

theorem policyStep_coherent (fetch : AuthFetch) (ns : String)
    (matchingServers : List String) {m : SMap} (hm : smapCoherent m)
    (p : AuthorizationPolicy) :
    smapCoherent (policyStep fetch ns matchingServers m p) := by
  unfold policyStep
  split
  · exact hm
  · split
    · split
      · exact hm
      · exact @foldl_preserve _ _ smapCoherent (refStep fetch ns p.name)
          (fun _ r hb => refStep_coherent fetch ns p.name hb r) _ m hm
    · exact hm

theorem findAllowedSources_coherent (fetch : AuthFetch)
    (policies : List AuthorizationPolicy) (ns : String)
    (matchingServers : List String) :
    smapCoherent ((policies.filter fun p => p.ns == ns).foldl
      (policyStep fetch ns matchingServers) ([] : SMap)) :=
  @foldl_preserve _ _ smapCoherent (policyStep fetch ns matchingServers)
    (fun _ p hb => policyStep_coherent fetch ns matchingServers hb p)
    _ [] smapCoherent_nil

/-! ## Claim C3: presence of the wildcard key -/

/-- The map holds an entry under the wildcard key. -/
def hasWild (m : SMap) : Prop := (alookup "all-authenticated" m).isSome

theorem hasWild_mapInsert {m : SMap} (h : hasWild m) (k : String)
    (v : SourceDesc) : hasWild (mapInsert m k v) := by
  unfold hasWild at h ⊢
  rw [alookup_mapInsert]
  by_cases hk : "all-authenticated" = k
  · rw [if_pos hk]; rfl
  · rw [if_neg hk]; exact h

theorem hasWild_mapInsert_wild (m : SMap) (v : SourceDesc) :
    hasWild (mapInsert m "all-authenticated" v) := by
  unfold hasWild
  rw [alookup_mapInsert, if_pos rfl]
  rfl

theorem processIdentities_hasWild {authName policyName : String}
    {ids : List String} (hmem : "*" ∈ ids) (m : SMap) :
    hasWild (processIdentities authName policyName m ids) := by
  unfold processIdentities
  refine @foldl_establish _ _ hasWild _ ?_ "*" ?_ ids m hmem
  · intro b s hb
    by_cases hs : s = "*"
    · rw [if_pos hs]; exact hasWild_mapInsert_wild _ _
    · rw [if_neg hs]; exact hasWild_mapInsert hb _ _
  · intro b
    rw [if_pos rfl]
    exact hasWild_mapInsert_wild _ _

theorem processServiceAccounts_hasWild {ns authName policyName : String}
    {sas : List ServiceAccountRef} {m : SMap} (h : hasWild m) :
    hasWild (processServiceAccounts ns authName policyName m sas) := by
  unfold processServiceAccounts
  exact @foldl_preserve _ _ hasWild _ (fun b sa hb => hasWild_mapInsert hb _ _)
    sas m h

theorem processNetworks_hasWild {authName policyName : String}
    {nets : List NetworkRef} {m : SMap} (h : hasWild m) :
    hasWild (processNetworks authName policyName m nets) := by
  unfold processNetworks
  exact @foldl_preserve _ _ hasWild _ (fun b n hb => hasWild_mapInsert hb _ _)
    nets m h

theorem applyIdentities_hasWild {authName policyName : String}
    {o : Option (List String)} (hstar : "*" ∈ o.getD []) (m : SMap) :
    hasWild (applyIdentities authName policyName m o) := by
  cases o with
  | none => simp at hstar
  | some ids => exact processIdentities_hasWild (by simpa using hstar) m

theorem applyServiceAccounts_hasWild {ns authName policyName : String}
    {o : Option (List ServiceAccountRef)} {m : SMap} (h : hasWild m) :
    hasWild (applyServiceAccounts ns authName policyName m o) := by
  cases o with
  | none => exact h
  | some sas => exact processServiceAccounts_hasWild h

theorem applyNetworks_hasWild {authName policyName : String}
    {o : Option (List NetworkRef)} {m : SMap} (h : hasWild m) :
    hasWild (applyNetworks authName policyName m o) := by
  cases o with
  | none => exact h
  | some nets => exact processNetworks_hasWild h

theorem resourceForKind_eq {kind : String}
    (h : kind = "MeshTLSAuthentication" ∨ kind = "NetworkAuthentication") :
    (if kind = "MeshTLSAuthentication" then "meshtlsauthentications"
      else "networkauthentications") = resourceForKind kind := by
  rcases h with rfl | rfl <;> rfl

theorem extractSourcesFromAuth_hasWild {fetch : AuthFetch}
    {ns authName authKind policyName : String}
    (hkind : authKind = "MeshTLSAuthentication" ∨ authKind = "NetworkAuthentication")
    {a : AuthObj}
    (hf : fetch (resourceForKind authKind) ns authName = some a)
    (hstar : "*" ∈ a.identities.getD []) :
    hasWild (extractSourcesFromAuth fetch ns authName authKind policyName) := by
  unfold extractSourcesFromAuth
  rw [← resourceForKind_eq hkind] at hf
  rw [if_pos hkind, hf]
  exact applyNetworks_hasWild
    (applyServiceAccounts_hasWild (applyIdentities_hasWild hstar []))

theorem mergeSources_hasWild_left {m src : SMap} (h : hasWild m) :
    hasWild (mergeSources m src) := by
  unfold mergeSources
  exact @foldl_preserve _ _ hasWild _ (fun b kv hb => hasWild_mapInsert hb _ _)
    src m h

theorem mergeSources_hasWild_right {m src : SMap} (h : hasWild src) :
    hasWild (mergeSources m src) := by
  unfold hasWild at h
  cases hl : alookup "all-authenticated" src with
  | none => rw [hl] at h; simp at h
  | some v =>
    have hmem := alookup_mem hl
    unfold mergeSources
    exact @foldl_establish _ _ hasWild (fun acc kv => mapInsert acc kv.1 kv.2)
      (fun _ _ hb => hasWild_mapInsert hb _ _) ("all-authenticated", v)
      (fun b => hasWild_mapInsert_wild b v) src m hmem

theorem policyStep_hasWild_preserve {fetch : AuthFetch} {ns : String}
    {matchingServers : List String} {m : SMap} (h : hasWild m)
    (p : AuthorizationPolicy) :
    hasWild (policyStep fetch ns matchingServers m p) := by
  unfold policyStep
  split
  · exact h
  · split
    · split
      · exact h
      · exact @foldl_preserve _ _ hasWild (refStep fetch ns p.name)
          (fun _ r hb => mergeSources_hasWild_left hb) _ m h
    · exact h

theorem policyStep_hasWild_establish {fetch : AuthFetch} {ns : String}
    {matchingServers : List String} {p : AuthorizationPolicy}
    {tr : TargetRef} (htr : p.targetRef = some tr)
    (hms : tr.name ∈ matchingServers)
    {refs : List AuthRef} (hrefs : p.requiredAuthenticationRefs = some refs)
    {r : AuthRef} (hr : r ∈ refs)
    (hkind : r.kind = "MeshTLSAuthentication" ∨ r.kind = "NetworkAuthentication")
    {a : AuthObj} (hf : fetch (resourceForKind r.kind) ns r.name = some a)
    (hstar : "*" ∈ a.identities.getD []) :
    ∀ m, hasWild (policyStep fetch ns matchingServers m p) := by
  intro m
  unfold policyStep
  split
  next htr' => rw [htr'] at htr; exact Option.noConfusion htr
  next tr' htr' =>
    have htr2 : tr' = tr := by rw [htr'] at htr; exact Option.some.inj htr
    split
    next hms' =>
      split
      next hrefs' => rw [hrefs'] at hrefs; exact Option.noConfusion hrefs
      next refs' hrefs' =>
        have hinj : refs' = refs := by
          rw [hrefs'] at hrefs; exact Option.some.inj hrefs
        exact @foldl_establish _ _ hasWild (refStep fetch ns p.name)
          (fun _ q hb => mergeSources_hasWild_left hb) r
          (fun b => mergeSources_hasWild_right
            (extractSourcesFromAuth_hasWild hkind hf hstar))
          refs' m (by rw [hinj]; exact hr)
    next hms' =>
      refine absurd (List.any_eq_true.mpr ⟨tr'.name, ?_, by simp⟩) hms'
      rw [htr2]
      exact hms

theorem isWild_descType {d : SourceDesc} (h : isWild d = true) :
    descType d = some "wildcard" := by
  cases d <;> simp [isWild] at h ⊢
  rfl

/-- Claim C3 (amended): the reverse-resolution result never holds two
descriptors with the same key, for every input; and provided no
fetched authentication object declares a plain identity string equal
to `"all-authenticated"` (which would overwrite the wildcard entry),
every descriptor under the wildcard key has type `"wildcard"`, and
whenever a wildcard identity is reachable through some matching policy
the result contains exactly one such descriptor. -/
theorem findAllowedSources_dedup_wildcard (fetch : AuthFetch)
    (policies : List AuthorizationPolicy) (ns : String)
    (matchingServers : List String) :
    (((findAllowedSources fetch policies ns matchingServers).map descKey).Nodup
     ∧ (NoWildcardClash fetch →
        ∀ d ∈ findAllowedSources fetch policies ns matchingServers,
          descKey d = "all-authenticated" → descType d = some "wildcard")
     ∧ (NoWildcardClash fetch →
        (∃ p ∈ policies, p.ns = ns ∧
          ∃ tr, p.targetRef = some tr ∧ tr.name ∈ matchingServers ∧
          ∃ refs, p.requiredAuthenticationRefs = some refs ∧
          ∃ r ∈ refs,
            (r.kind = "MeshTLSAuthentication" ∨ r.kind = "NetworkAuthentication") ∧
            ∃ a, fetch (resourceForKind r.kind) ns r.name = some a ∧
              "*" ∈ a.identities.getD []) →
        ∃ d ∈ findAllowedSources fetch policies ns matchingServers,
          descKey d = "all-authenticated" ∧ descType d = some "wildcard")) := by
  have hCo := findAllowedSources_coherent fetch policies ns matchingServers
  unfold findAllowedSources
  refine ⟨?_, ?_, ?_⟩
  · rw [List.map_map]
    have heq : ((policies.filter fun p => p.ns == ns).foldl
        (policyStep fetch ns matchingServers) ([] : SMap)).map (descKey ∘ Prod.snd)
        = ((policies.filter fun p => p.ns == ns).foldl
        (policyStep fetch ns matchingServers) ([] : SMap)).map Prod.fst := by
      apply List.map_congr_left
      intro kv hkv
      exact (hCo.2 kv hkv).symm
    rw [heq]
    exact hCo.1
  · intro hno d hd hk
    have hOK := findAllowedSources_smapOK hno policies ns matchingServers
    obtain ⟨kv, hkv, rfl⟩ := List.mem_map.mp hd
    exact isWild_descType ((hOK.2 kv hkv).2 ((hOK.2 kv hkv).1.trans hk))
  · rintro hno ⟨p, hp, hpns, tr, htr, hms, refs, hrefs, r, hr, hkind, a, hf, hstar⟩
    have hOK := findAllowedSources_smapOK hno policies ns matchingServers
    have hpf : p ∈ policies.filter (fun p => p.ns == ns) :=
      List.mem_filter.mpr ⟨hp, by simp [hpns]⟩
    have hW : hasWild ((policies.filter fun p => p.ns == ns).foldl
        (policyStep fetch ns matchingServers) ([] : SMap)) :=
      @foldl_establish _ _ hasWild (policyStep fetch ns matchingServers)
        (fun _ q hb => policyStep_hasWild_preserve hb q) p
        (policyStep_hasWild_establish htr hms hrefs hr hkind hf hstar)
        (policies.filter fun p => p.ns == ns) [] hpf
    unfold hasWild at hW
    cases hl : alookup "all-authenticated" ((policies.filter fun p => p.ns == ns).foldl
        (policyStep fetch ns matchingServers) ([] : SMap)) with
    | none => rw [hl] at hW; simp at hW
    | some v =>
      have hmem := alookup_mem hl
      refine ⟨v, List.mem_map.mpr ⟨("all-authenticated", v), hmem, rfl⟩, ?_, ?_⟩
      · exact ((hOK.2 _ hmem).1).symm
      · exact isWild_descType ((hOK.2 _ hmem).2 rfl)

/-- A MeshTLSAuthentication with a wildcard identity and an ordinary
identity. -/
def authWild : AuthObj :=
  { identities := some ["*",
      "frontend-sa.prod.serviceaccount.identity.linkerd.cluster.local"],
    serviceAccounts := none, networks := none }

/-- A fetch environment holding exactly `authWild` under
`prod/auth1`. -/
def fetchWild : AuthFetch := fun res nsp name =>
  if res = "meshtlsauthentications" ∧ nsp = "prod" ∧ name = "auth1" then
    some authWild
  else none

/-- A policy targeting Server `srv` and requiring `auth1`. -/
def polWild : AuthorizationPolicy :=
  { name := "pol1", ns := "prod",
    targetRef := some { kind := "Server", name := "srv" },
    requiredAuthenticationRefs :=
      some [{ kind := "MeshTLSAuthentication", name := "auth1", ns := "" }] }

/-- Witness for C3 (amended): the wildcard of `authWild` surfaces as
one wildcard-typed descriptor. -/
theorem findAllowedSources_dedup_wildcard_witness :
    ∃ d ∈ findAllowedSources fetchWild [polWild] "prod" ["srv"],
      descKey d = "all-authenticated" ∧ descType d = some "wildcard" :=
  (findAllowedSources_dedup_wildcard fetchWild [polWild] "prod" ["srv"]).2.2
    (by
      intro res nsp name a h
      unfold fetchWild at h
      split at h
      · obtain rfl := Option.some.inj h
        decide
      · exact Option.noConfusion h)
    ⟨polWild, by simp, rfl, { kind := "Server", name := "srv" }, rfl, by simp,
      [{ kind := "MeshTLSAuthentication", name := "auth1", ns := "" }], rfl,
      { kind := "MeshTLSAuthentication", name := "auth1", ns := "" }, by simp,
      Or.inl rfl, authWild, rfl, by decide⟩

/-- A MeshTLSAuthentication whose identity list contains `"*"` and the
literal string `"all-authenticated"`. -/
def authClash : AuthObj :=
  { identities := some ["*", "all-authenticated"],
    serviceAccounts := none, networks := none }

/-- A fetch environment holding exactly `authClash` under
`prod/auth1`. -/
def fetchClash : AuthFetch := fun res nsp name =>
  if res = "meshtlsauthentications" ∧ nsp = "prod" ∧ name = "auth1" then
    some authClash
  else none

/-- Counterexample to C3 as stated: a reachable wildcard identity is
present, yet the result's only descriptor under the key
`"all-authenticated"` is an identity descriptor without
`type="wildcard"` (a later plain identity string `"all-authenticated"`
overwrote the wildcard entry). -/
theorem findAllowedSources_wildcard_counterexample :
    (("*" ∈ authClash.identities.getD []
      ∧ fetchClash (resourceForKind "MeshTLSAuthentication") "prod" "auth1" =
          some authClash)
     ∧ findAllowedSources fetchClash [polWild] "prod" ["srv"] =
         [SourceDesc.identityDesc "all-authenticated" "auth1" "pol1"]
     ∧ descType (SourceDesc.identityDesc "all-authenticated" "auth1" "pol1") ≠
         some "wildcard") :=
  ⟨⟨by decide, rfl⟩, rfl, by decide⟩

end LinkerdMCP
